import Mathlib

/-!
Verification development for the two data-generation scripts of the
ecommerce-dashboard-app repository:

* `scripts/generate_dashboard_data.py` — submits a fixed dictionary of named
  Athena queries, polls each execution until a terminal status, parses the
  string result cells into int/float/string/null values keyed by lower-cased
  column label, and accumulates a dashboard document (failed queries omitted).
* `scripts/generate_data.py` — submits a fixed dictionary of named queries
  through awswrangler, storing each query's rows under its name (an empty
  list on failure), and writes the document as JSON.

The external services (boto3 Athena client, awswrangler/pandas) are modelled
as oracles: functions from a query name to the service's observable outcome.
Python's `int(...)` and `float(...)` builtins are modelled as abstract
partial parsing functions bundled in `PyNum`; Python `dict` is modelled as an
association list with insert-or-replace semantics that preserves first
insertion order, exactly as CPython dicts do.
-/

/-- Scalar value stored in a result row: the Python side stores `int`,
`float`, `str` or `None` cells.  Floats are represented abstractly by
rationals; none of the verified properties depend on float rounding. -/
inductive Value where
  | int (n : Int)
  | float (q : Rat)
  | str (s : String)
  | null
deriving DecidableEq, Repr

/-- Model of the Python numeric builtins used by the cell coercion:
`int?` models `int(s)` (`none` when `int` raises `ValueError`) and
`float?` models `float(s)` (`none` when `float` raises `ValueError`). -/
structure PyNum where
  int? : String → Option Int
  float? : String → Option Rat

/-- A result row (Python dict from column label to value). -/
abbrev Row := List (String × Value)

/-- A dataset: the ordered list of parsed result rows of one query. -/
abbrev Dataset := List Row

/-- The dashboard document: mapping from query name to dataset. -/
abbrev Doc := List (String × Dataset)

/-- Python dict assignment `d[k] = v`: replace the value in place when the
key is present (keeping its position), otherwise append the new binding. -/
def dictInsert {α : Type} (d : List (String × α)) (k : String) (v : α) :
    List (String × α) :=
  match d with
  | [] => [(k, v)]
  | (k₀, v₀) :: rest =>
      if k₀ = k then (k₀, v) :: rest else (k₀, v₀) :: dictInsert rest k v

/-- Python dict read `d.get(k)`: first binding with the given key. -/
def dictLookup {α : Type} (d : List (String × α)) (k : String) : Option α :=
  match d with
  | [] => none
  | (k₀, v₀) :: rest => if k₀ = k then some v₀ else dictLookup rest k

/-- Key list of a dict, in insertion order. -/
def dictKeys {α : Type} (d : List (String × α)) : List String :=
  d.map Prod.fst

/-- Last-occurrence lookup in a plain pair list: the value of the LAST pair
whose key matches, if any.  Used to state that later assignments to the same
dict key overwrite earlier ones. -/
def dictLookupLast {α : Type} (kvs : List (String × α)) (k : String) :
    Option α :=
  match kvs with
  | [] => none
  | (k₀, v₀) :: rest =>
      match dictLookupLast rest k with
      | some v => some v
      | none => if k₀ = k then some v₀ else none

/-- Sequential dict assignment of a list of key-value pairs. -/
def insertAll {α : Type} (d : List (String × α)) (kvs : List (String × α)) :
    List (String × α) :=
  kvs.foldl (fun acc kv => dictInsert acc kv.1 kv.2) d

/-- Python's `c in s` membership test on a string, as a character scan. -/
def pyContains (s : String) (c : Char) : Bool :=
  s.data.contains c

/-- Python's `str.lower()`, character-wise lowering (the column labels are
ASCII, where `Char.toLower` agrees with Python's lowering). -/
def pyLower (s : String) : String :=
  ⟨s.data.map Char.toLower⟩

/-- Cell coercion of `execute_athena_query` (generate_dashboard_data.py,
lines 195-206).  The cell payload is `row.Data[i].get('VarCharValue', None)`,
an optional string.  A missing payload stores `None`; a payload containing a
dot is parsed with `float` (falling back to the unmodified string when
`float` raises `ValueError`); otherwise it is parsed with `int` (same
fallback). -/
def parseCell (pn : PyNum) (value : Option String) : Value :=
  match value with
  | some v =>
      if pyContains v '.' then
        match pn.float? v with
        | some q => Value.float q
        | none => Value.str v
      else
        match pn.int? v with
        | some n => Value.int n
        | none => Value.str v
  | none => Value.null

/-- Inner loop of the row parser: `for i, col in enumerate(columns)` with the
running index `i`, assigning `row_data[col.lower()] = ...` for each column.
Reading `row.Data[i]` out of bounds raises `IndexError` (modelled by `none`),
which aborts the whole query. -/
def parseRowAux (pn : PyNum) (data : List (Option String)) :
    Nat → List String → Row → Option Row
  | _, [], acc => some acc
  | i, col :: rest, acc =>
      match data.get? i with
      | none => none
      | some cell =>
          parseRowAux pn data (i + 1) rest
            (dictInsert acc (pyLower col) (parseCell pn cell))

/-- Parse one result row (`row_data` construction, lines 193-207): starting
from the empty dict, assign the parsed value of each cell under the
lower-cased column label, in column order. -/
def parseRow (pn : PyNum) (cols : List String) (data : List (Option String)) :
    Option Row :=
  parseRowAux pn data 0 cols []

/-- Option-valued in-order traversal of a list: stops at the first failure,
like the Python loop aborting on the first raised exception. -/
def optionTraverse {α β : Type} (f : α → Option β) : List α → Option (List β)
  | [] => some []
  | a :: rest =>
      match f a with
      | none => none
      | some b =>
          match optionTraverse f rest with
          | none => none
          | some bs => some (b :: bs)

/-- Row loop of `execute_athena_query` (lines 190-207): skip the header row
(`Rows[1:]`), then parse each remaining row in order; any raised exception
aborts the query. -/
def parseRows (pn : PyNum) (cols : List String)
    (rows : List (List (Option String))) : Option (List Row) :=
  optionTraverse (parseRow pn cols) (rows.drop 1)

/-- Observable outcome of one Athena query execution as seen by
`execute_athena_query` after its polling loop: the terminal status reported
by `get_query_execution`, and (read only on success) the column labels and
raw rows of `get_query_results`.  Each raw cell is the optional
`VarCharValue` payload. -/
structure AthenaResponse where
  finalStatus : String
  cols : List String
  rows : List (List (Option String))

/-- Model of `execute_athena_query` (lines 153-214): `none` for the whole
interaction models an exception raised while submitting, polling or
fetching, caught by the function's catch-all handler.  Otherwise, a terminal
status other than `SUCCEEDED` returns `None`; on success the rows are parsed
(a parsing exception is caught by the same handler, giving `None`). -/
def execute_athena_query (pn : PyNum) (resp : Option AthenaResponse) :
    Option (List Row) :=
  match resp with
  | none => none
  | some r =>
      if r.finalStatus = "SUCCEEDED" then parseRows pn r.cols r.rows
      else none

/-- Key list of the `QUERIES` dictionary of generate_dashboard_data.py
(lines 19-151), in source order.  The SQL bodies are opaque payloads passed
to the external service and are not modelled. -/
def QUERIES_names : List String :=
  ["kpis", "monthly_sales", "monthly_revenue", "monthly_revenue_by_country",
   "country_revenue", "top_products", "rfm_analysis", "cohort_analysis",
   "market_basket"]

/-- Loop body of `generate_dashboard_data` (lines 225-228): run the query
and store its result under the query name only when it is not `None`. -/
def buildStep (g : String → Option (List Row)) (acc : Doc) (name : String) :
    Doc :=
  match g name with
  | some results => dictInsert acc name results
  | none => acc

/-- Model of `generate_dashboard_data` (lines 216-234): fold the per-query
step over the query names in dictionary order, starting from the empty
document.  `svc` is the Athena service oracle giving each query's outcome. -/
def generate_dashboard_data (pn : PyNum)
    (svc : String → Option AthenaResponse) : Doc :=
  QUERIES_names.foldl
    (buildStep (fun name => execute_athena_query pn (svc name))) []

/-- Model of `run_query` of generate_data.py (lines 14-27): the awswrangler
call either returns the dataframe's records (here: the oracle's row list) or
raises, in which case the handler returns the empty list. -/
def run_query (outcome : Option (List Row)) : List Row :=
  match outcome with
  | some rows => rows
  | none => []

/-- Key list of the `queries` dictionary of generate_data.py (lines 34-169),
in source order. -/
def queries_names : List String :=
  ["kpis", "monthly_sales", "monthly_revenue_by_country", "top_products",
   "rfm_analysis", "market_basket", "cohort_analysis", "country_revenue"]

/-- Model of the main loop of generate_data.py (lines 175-177):
`final_data[name] = run_query(name, sql)` for every query name, so every
name is always assigned (the `buildStep` oracle always returns `some`). -/
def final_data (svc : String → Option (List Row)) : Doc :=
  queries_names.foldl
    (buildStep (fun name => some (run_query (svc name)))) []

/-- Terminal statuses of the polling loop (line 172):
`status in ['SUCCEEDED', 'FAILED', 'CANCELLED']`. -/
def isTerminal (s : String) : Bool :=
  s = "SUCCEEDED" || s = "FAILED" || s = "CANCELLED"

/-- Number of polls performed by the `while True` loop of
`execute_athena_query` (lines 168-176) on a status stream `f` that
eventually reports a terminal status: the index of the first terminal
status, at which the loop breaks. -/
def pollExit (f : Nat → String) (h : ∃ n, isTerminal (f n) = true) : Nat :=
  Nat.find h

/-- Status with which the polling loop exits: the stream's value at the
first terminal index. -/
def pollStatus (f : Nat → String) (h : ∃ n, isTerminal (f n) = true) :
    String :=
  f (pollExit f h)

/-- Trivial instantiation of the numeric builtins, used to evaluate the
model on concrete inputs where numeric parsing is irrelevant. -/
def pyNum0 : PyNum :=
  ⟨fun _ => none, fun _ => none⟩

/-- Sample instantiation of the numeric builtins recognising a few concrete
literals, used to evaluate the model on concrete inputs. -/
def pyNumSample : PyNum :=
  ⟨fun s => if s = "3" then some 3 else if s = "17" then some 17 else none,
   fun s => if s = "2.5" then some (5 / 2 : Rat) else none⟩

/-- JSON value tree.  Modelled from the spec: the Python `json` module used
for the final serialization (`json.dump` / reading the file back) is not
part of this repository, so the round-trip is modelled at the level of the
JSON value tree; integers and floats keep their distinct JSON spellings
(no decimal point versus decimal point), as `json.dump` writes them and
`json.load` reads them back. -/
inductive Json where
  | jNull
  | jInt (n : Int)
  | jNum (q : Rat)
  | jStr (s : String)
  | jArr (xs : List Json)
  | jObj (fields : List (String × Json))
deriving Repr

/-- JSON encoding of one scalar value, as `json.dump` writes it. -/
def encodeValue : Value → Json
  | Value.int n => Json.jInt n
  | Value.float q => Json.jNum q
  | Value.str s => Json.jStr s
  | Value.null => Json.jNull

/-- JSON encoding of one result row as an object. -/
def encodeRow (r : Row) : Json :=
  Json.jObj (r.map (fun kv => (kv.1, encodeValue kv.2)))

/-- JSON encoding of one dataset as an array of row objects. -/
def encodeDataset (ds : Dataset) : Json :=
  Json.jArr (ds.map encodeRow)

/-- JSON encoding of the dashboard document as the top-level object. -/
def encodeDoc (doc : Doc) : Json :=
  Json.jObj (doc.map (fun nd => (nd.1, encodeDataset nd.2)))

/-- Decoding of one scalar value from parsed JSON. -/
def decodeValue : Json → Option Value
  | Json.jNull => some Value.null
  | Json.jInt n => some (Value.int n)
  | Json.jNum q => some (Value.float q)
  | Json.jStr s => some (Value.str s)
  | Json.jArr _ => none
  | Json.jObj _ => none

/-- Decoding of one result row from a JSON object. -/
def decodeRow : Json → Option Row
  | Json.jObj fields =>
      optionTraverse
        (fun kj => (decodeValue kj.2).map (fun v => (kj.1, v))) fields
  | _ => none

/-- Decoding of one dataset from a JSON array. -/
def decodeDataset : Json → Option Dataset
  | Json.jArr xs => optionTraverse decodeRow xs
  | _ => none

/-- Decoding of the dashboard document from the top-level JSON object. -/
def decodeDoc : Json → Option Doc
  | Json.jObj fields =>
      optionTraverse
        (fun nj => (decodeDataset nj.2).map (fun ds => (nj.1, ds))) fields
  | _ => none

/-- Assignment sequence performed by the row-parsing loop, in column order:
the pair (lower-cased label, parsed cell value) for each column index.  Used
to characterise which assignment a dict key ends up holding. -/
def pairsOf (pn : PyNum) (data : List (Option String)) :
    Nat → List String → List (String × Value)
  | _, [] => []
  | i, col :: rest =>
      match data.get? i with
      | none => []
      | some cell =>
          (pyLower col, parseCell pn cell) :: pairsOf pn data (i + 1) rest

/-- Status stream of a query whose very first poll reports success, used to
evaluate the polling model on a concrete input. -/
def constSucceeded : Nat → String := fun _ => "SUCCEEDED"

/- ### Dictionary lemmas -/

theorem dictLookup_insert_self {α : Type} (d : List (String × α)) (k : String)
    (v : α) : dictLookup (dictInsert d k v) k = some v := by
  induction d with
  | nil => simp [dictInsert, dictLookup]
  | cons kv rest ih =>
      obtain ⟨k₀, v₀⟩ := kv
      by_cases h : k₀ = k <;> simp [dictInsert, dictLookup, h, ih]

theorem dictLookup_insert_ne {α : Type} (d : List (String × α))
    (k k' : String) (v : α) (h : k' ≠ k) :
    dictLookup (dictInsert d k v) k' = dictLookup d k' := by
  have hne : k ≠ k' := Ne.symm h
  induction d with
  | nil => simp [dictInsert, dictLookup, hne]
  | cons kv rest ih =>
      obtain ⟨k₀, v₀⟩ := kv
      by_cases h₀ : k₀ = k
      · subst h₀
        simp [dictInsert, dictLookup, hne]
      · simp [dictInsert, dictLookup, h₀, ih]

theorem dictKeys_cons {α : Type} (k₀ : String) (v₀ : α)
    (rest : List (String × α)) :
    dictKeys ((k₀, v₀) :: rest) = k₀ :: dictKeys rest := rfl

theorem mem_dictKeys_insert {α : Type} (d : List (String × α))
    (k k' : String) (v : α) :
    k' ∈ dictKeys (dictInsert d k v) ↔ k' ∈ dictKeys d ∨ k' = k := by
  induction d with
  | nil => simp [dictInsert, dictKeys]
  | cons kv rest ih =>
      obtain ⟨k₀, v₀⟩ := kv
      by_cases h : k₀ = k
      · rw [show dictInsert ((k₀, v₀) :: rest) k v = (k₀, v) :: rest from by
          simp [dictInsert, h]]
        rw [dictKeys_cons, dictKeys_cons]
        simp only [List.mem_cons]
        rw [h]
        tauto
      · rw [show dictInsert ((k₀, v₀) :: rest) k v =
            (k₀, v₀) :: dictInsert rest k v from by simp [dictInsert, h]]
        rw [dictKeys_cons, dictKeys_cons]
        simp only [List.mem_cons]
        rw [ih]
        tauto

theorem mem_dictKeys_iff_lookup {α : Type} (d : List (String × α))
    (k : String) : k ∈ dictKeys d ↔ dictLookup d k ≠ none := by
  induction d with
  | nil => simp [dictKeys, dictLookup]
  | cons kv rest ih =>
      obtain ⟨k₀, v₀⟩ := kv
      by_cases h : k₀ = k
      · subst h
        rw [dictKeys_cons, List.mem_cons]
        simp [dictLookup]
      · rw [dictKeys_cons, List.mem_cons]
        rw [show dictLookup ((k₀, v₀) :: rest) k = dictLookup rest k from by
          simp [dictLookup, h]]
        rw [ih]
        constructor
        · rintro (h' | h')
          · exact absurd h'.symm h
          · exact h'
        · exact fun h' => Or.inr h'

theorem mem_of_mem_dictInsert {α : Type} (d : List (String × α))
    (k : String) (v : α) (kv : String × α) (h : kv ∈ dictInsert d k v) :
    kv ∈ d ∨ kv = (k, v) := by
  induction d with
  | nil => simp [dictInsert] at h; simp [h]
  | cons kv₀ rest ih =>
      obtain ⟨k₀, v₀⟩ := kv₀
      by_cases h₀ : k₀ = k
      · rw [show dictInsert ((k₀, v₀) :: rest) k v = (k₀, v) :: rest from by
          simp [dictInsert, h₀]] at h
        rw [List.mem_cons] at h
        rcases h with h₁ | h₁
        · exact Or.inr (by rw [h₁, h₀])
        · exact Or.inl (List.mem_cons_of_mem _ h₁)
      · rw [show dictInsert ((k₀, v₀) :: rest) k v =
            (k₀, v₀) :: dictInsert rest k v from by
          simp [dictInsert, h₀]] at h
        rw [List.mem_cons] at h
        rcases h with h₁ | h₁
        · exact Or.inl (by rw [h₁]; exact List.mem_cons_self _ _)
        · rcases ih h₁ with h₂ | h₂
          · exact Or.inl (List.mem_cons_of_mem _ h₂)
          · exact Or.inr h₂

theorem dictLookup_insertAll {α : Type} (kvs : List (String × α))
    (d : List (String × α)) (k : String) :
    dictLookup (insertAll d kvs) k =
      match dictLookupLast kvs k with
      | some v => some v
      | none => dictLookup d k := by
  induction kvs generalizing d with
  | nil => simp [insertAll, dictLookupLast]
  | cons kv rest ih =>
      obtain ⟨k₀, v₀⟩ := kv
      have step : insertAll d ((k₀, v₀) :: rest) =
          insertAll (dictInsert d k₀ v₀) rest := rfl
      rw [step, ih]
      cases hrest : dictLookupLast rest k with
      | some v => simp [dictLookupLast, hrest]
      | none =>
          by_cases h : k₀ = k
          · subst h
            simp [dictLookupLast, hrest, dictLookup_insert_self]
          · have hne : k ≠ k₀ := Ne.symm h
            simp [dictLookupLast, hrest, h,
              dictLookup_insert_ne d k₀ k v₀ hne]

theorem optionTraverse_length {α β : Type} (f : α → Option β)
    (l : List α) (out : List β) (h : optionTraverse f l = some out) :
    out.length = l.length := by
  induction l generalizing out with
  | nil => simp [optionTraverse] at h; simp [h]
  | cons a rest ih =>
      simp only [optionTraverse] at h
      cases ha : f a with
      | none => rw [ha] at h; exact absurd h (by simp)
      | some b =>
          rw [ha] at h
          cases hrest : optionTraverse f rest with
          | none => rw [hrest] at h; exact absurd h (by simp)
          | some bs =>
              rw [hrest] at h
              cases h
              simp [ih bs hrest]

theorem optionTraverse_get? {α β : Type} (f : α → Option β)
    (l : List α) (out : List β) (h : optionTraverse f l = some out)
    (j : Nat) : out.get? j = (l.get? j).bind f := by
  induction l generalizing out j with
  | nil => simp [optionTraverse] at h; simp [h]
  | cons a rest ih =>
      simp only [optionTraverse] at h
      cases ha : f a with
      | none => rw [ha] at h; exact absurd h (by simp)
      | some b =>
          rw [ha] at h
          cases hrest : optionTraverse f rest with
          | none => rw [hrest] at h; exact absurd h (by simp)
          | some bs =>
              rw [hrest] at h
              cases h
              cases j with
              | zero => simp [ha]
              | succ j =>
                  rw [List.get?_cons_succ, List.get?_cons_succ]
                  exact ih bs hrest j

theorem optionTraverse_map_id {α β : Type} (f : β → Option α) (g : α → β)
    (l : List α) (h : ∀ x ∈ l, f (g x) = some x) :
    optionTraverse f (l.map g) = some l := by
  induction l with
  | nil => simp [optionTraverse]
  | cons a rest ih =>
      have ha : f (g a) = some a := h a (List.mem_cons_self a rest)
      have hrest : optionTraverse f (rest.map g) = some rest :=
        ih (fun x hx => h x (List.mem_cons_of_mem a hx))
      simp [optionTraverse, ha, hrest]

/- ### Row-parsing lemmas -/

theorem parseRowAux_mem (pn : PyNum) (data : List (Option String)) :
    ∀ (cols : List String) (i : Nat) (acc row : Row),
      parseRowAux pn data i cols acc = some row →
      ∀ kv : String × Value, kv ∈ row → kv ∈ acc ∨
        ∃ j col cell, cols.get? j = some col ∧
          data.get? (i + j) = some cell ∧
          kv = (pyLower col, parseCell pn cell) := by
  intro cols
  induction cols with
  | nil =>
      intro i acc row h kv hkv
      simp only [parseRowAux] at h
      cases h
      exact Or.inl hkv
  | cons col rest ih =>
      intro i acc row h kv hkv
      simp only [parseRowAux] at h
      cases hd : data.get? i with
      | none => rw [hd] at h; exact absurd h (by simp)
      | some cell =>
          rw [hd] at h
          rcases ih (i + 1)
              (dictInsert acc (pyLower col) (parseCell pn cell)) row h kv hkv
            with hacc | ⟨j, col', cell', hc, hdat, hkv'⟩
          · rcases mem_of_mem_dictInsert _ _ _ _ hacc with h₁ | h₁
            · exact Or.inl h₁
            · exact Or.inr ⟨0, col, cell, rfl, by simpa using hd, h₁⟩
          · refine Or.inr ⟨j + 1, col', cell', by simpa using hc, ?_, hkv'⟩
            rw [show i + (j + 1) = i + 1 + j from by omega]
            exact hdat

theorem parseRowAux_eq_insertAll (pn : PyNum) (data : List (Option String)) :
    ∀ (cols : List String) (i : Nat) (acc row : Row),
      parseRowAux pn data i cols acc = some row →
      row = insertAll acc (pairsOf pn data i cols) := by
  intro cols
  induction cols with
  | nil =>
      intro i acc row h
      simp only [parseRowAux] at h
      cases h
      rfl
  | cons col rest ih =>
      intro i acc row h
      simp only [parseRowAux] at h
      cases hd : data.get? i with
      | none => rw [hd] at h; exact absurd h (by simp)
      | some cell =>
          rw [hd] at h
          have := ih (i + 1)
            (dictInsert acc (pyLower col) (parseCell pn cell)) row h
          rw [this]
          simp only [pairsOf, hd, insertAll, List.foldl_cons]

theorem pairsOf_fst (pn : PyNum) (data : List (Option String)) :
    ∀ (cols : List String) (i : Nat) (acc row : Row),
      parseRowAux pn data i cols acc = some row →
      (pairsOf pn data i cols).map Prod.fst = cols.map pyLower := by
  intro cols
  induction cols with
  | nil => intro i acc row _; rfl
  | cons col rest ih =>
      intro i acc row h
      simp only [parseRowAux] at h
      cases hd : data.get? i with
      | none => rw [hd] at h; exact absurd h (by simp)
      | some cell =>
          rw [hd] at h
          have := ih (i + 1)
            (dictInsert acc (pyLower col) (parseCell pn cell)) row h
          simp only [pairsOf, hd, List.map_cons]
          rw [this]

theorem mem_dictKeys_insertAll {α : Type} (kvs : List (String × α))
    (d : List (String × α)) (k : String) :
    k ∈ dictKeys (insertAll d kvs) ↔
      k ∈ dictKeys d ∨ k ∈ kvs.map Prod.fst := by
  induction kvs generalizing d with
  | nil => simp [insertAll]
  | cons kv rest ih =>
      obtain ⟨k₀, v₀⟩ := kv
      have step : insertAll d ((k₀, v₀) :: rest) =
          insertAll (dictInsert d k₀ v₀) rest := rfl
      rw [step]
      rw [ih (dictInsert d k₀ v₀)]
      rw [mem_dictKeys_insert]
      simp only [List.map_cons, List.mem_cons]
      tauto

/- ### Document-building lemmas -/

theorem lookup_foldl_buildStep_notMem (g : String → Option (List Row))
    (names : List String) (acc : Doc) (k : String) (hk : k ∉ names) :
    dictLookup (names.foldl (buildStep g) acc) k = dictLookup acc k := by
  induction names generalizing acc with
  | nil => rfl
  | cons n rest ih =>
      have hkn : k ≠ n := fun h => hk (h ▸ List.mem_cons_self n rest)
      have hk' : k ∉ rest := fun h => hk (List.mem_cons_of_mem n h)
      rw [List.foldl_cons, ih (buildStep g acc n) hk']
      cases hg : g n with
      | none => simp [buildStep, hg]
      | some r => simp [buildStep, hg, dictLookup_insert_ne acc n k r hkn]

theorem lookup_foldl_buildStep_mem (g : String → Option (List Row))
    (names : List String) (acc : Doc) (k : String)
    (hnd : names.Nodup) (hk : k ∈ names) :
    dictLookup (names.foldl (buildStep g) acc) k =
      match g k with
      | some r => some r
      | none => dictLookup acc k := by
  induction names generalizing acc with
  | nil => exact absurd hk (List.not_mem_nil k)
  | cons n rest ih =>
      rw [List.foldl_cons]
      rcases List.mem_cons.mp hk with hkn | hkr
      · subst hkn
        have hout : k ∉ rest := (List.nodup_cons.mp hnd).1
        rw [lookup_foldl_buildStep_notMem g rest (buildStep g acc k) k hout]
        cases hg : g k with
        | none => simp [buildStep, hg]
        | some r => simp [buildStep, hg, dictLookup_insert_self]
      · have hnd' : rest.Nodup := (List.nodup_cons.mp hnd).2
        rw [ih (buildStep g acc n) hnd' hkr]
        cases hg : g k with
        | some r => rfl
        | none =>
            have hkn : k ≠ n := fun h =>
              (List.nodup_cons.mp hnd).1 (h ▸ hkr)
            cases hgn : g n with
            | none => simp [buildStep, hgn]
            | some r =>
                simp [buildStep, hgn, dictLookup_insert_ne acc n k r hkn]

theorem mem_keys_foldl_buildStep (g : String → Option (List Row))
    (names : List String) (acc : Doc) (k : String) :
    k ∈ dictKeys (names.foldl (buildStep g) acc) ↔
      k ∈ dictKeys acc ∨ (k ∈ names ∧ (g k).isSome) := by
  induction names generalizing acc with
  | nil => simp
  | cons n rest ih =>
      rw [List.foldl_cons, ih (buildStep g acc n)]
      by_cases hkn : k = n
      · subst hkn
        cases hg : g k with
        | none =>
            simp only [buildStep, hg, List.mem_cons, Option.isSome_none]
            tauto
        | some r =>
            simp only [buildStep, hg, List.mem_cons,
              mem_dictKeys_insert, Option.isSome_some]
            tauto
      · cases hg : g n with
        | none =>
            simp only [buildStep, hg, List.mem_cons]
            tauto
        | some r =>
            simp only [buildStep, hg, List.mem_cons,
              mem_dictKeys_insert]
            tauto

/- ### Per-script lookup characterisations -/

theorem gdd_lookup (pn : PyNum) (svc : String → Option AthenaResponse)
    (name : String) (h : name ∈ QUERIES_names) :
    dictLookup (generate_dashboard_data pn svc) name =
      execute_athena_query pn (svc name) := by
  have hnd : QUERIES_names.Nodup := by decide
  rw [generate_dashboard_data, lookup_foldl_buildStep_mem _ _ _ _ hnd h]
  cases hg : execute_athena_query pn (svc name) with
  | none => rfl
  | some r => rfl

theorem gdd_lookup_notMem (pn : PyNum) (svc : String → Option AthenaResponse)
    (name : String) (h : name ∉ QUERIES_names) :
    dictLookup (generate_dashboard_data pn svc) name = none := by
  rw [generate_dashboard_data, lookup_foldl_buildStep_notMem _ _ _ _ h]
  rfl

theorem gd_lookup (svc : String → Option (List Row)) (name : String)
    (h : name ∈ queries_names) :
    dictLookup (final_data svc) name = some (run_query (svc name)) := by
  have hnd : queries_names.Nodup := by decide
  rw [final_data, lookup_foldl_buildStep_mem _ _ _ _ hnd h]

theorem gd_lookup_notMem (svc : String → Option (List Row)) (name : String)
    (h : name ∉ queries_names) :
    dictLookup (final_data svc) name = none := by
  rw [final_data, lookup_foldl_buildStep_notMem _ _ _ _ h]
  rfl

/- ### Further traversal and round-trip lemmas -/

theorem optionTraverse_mem {α β : Type} (f : α → Option β) (l : List α)
    (out : List β) (h : optionTraverse f l = some out) :
    ∀ b ∈ out, ∃ a ∈ l, f a = some b := by
  induction l generalizing out with
  | nil =>
      simp only [optionTraverse] at h
      cases h
      intro b hb
      exact absurd hb (List.not_mem_nil b)
  | cons a rest ih =>
      simp only [optionTraverse] at h
      cases ha : f a with
      | none => rw [ha] at h; exact absurd h (by simp)
      | some b₀ =>
          rw [ha] at h
          cases hrest : optionTraverse f rest with
          | none => rw [hrest] at h; exact absurd h (by simp)
          | some bs =>
              rw [hrest] at h
              cases h
              intro b hb
              rcases List.mem_cons.mp hb with hb | hb
              · exact ⟨a, List.mem_cons_self a rest, hb ▸ ha⟩
              · rcases ih bs hrest b hb with ⟨a', ha', hfa'⟩
                exact ⟨a', List.mem_cons_of_mem a ha', hfa'⟩

theorem decodeValue_encodeValue (v : Value) :
    decodeValue (encodeValue v) = some v := by
  cases v <;> rfl

theorem decodeRow_encodeRow (r : Row) : decodeRow (encodeRow r) = some r := by
  show optionTraverse _ (r.map _) = some r
  exact optionTraverse_map_id _ _ r (fun kv _ => by
    obtain ⟨k, v⟩ := kv
    simp [decodeValue_encodeValue])

theorem decodeDataset_encodeDataset (ds : Dataset) :
    decodeDataset (encodeDataset ds) = some ds := by
  show optionTraverse _ (ds.map _) = some ds
  exact optionTraverse_map_id _ _ ds (fun r _ => decodeRow_encodeRow r)

theorem decodeDoc_encodeDoc (doc : Doc) :
    decodeDoc (encodeDoc doc) = some doc := by
  show optionTraverse _ (doc.map _) = some doc
  exact optionTraverse_map_id _ _ doc (fun nd _ => by
    obtain ⟨n, ds⟩ := nd
    simp [decodeDataset_encodeDataset])

/-- Helper for the polling witness: the constant stream reports a terminal
status at index 0. -/
theorem constSucceeded_hits : ∃ n, isTerminal (constSucceeded n) = true :=
  ⟨0, by decide⟩

/- ### Claim theorems -/

/-- C1: for every successful query and every result row after the header
row, each cell is stored under the lower-cased column label, and its value
is: a float when the payload contains a dot and the float parse succeeds, an
int when it lacks a dot and the int parse succeeds, the original unmodified
string when the numeric parse fails, and null when the payload is absent.
Every binding of a parsed row is the lower-cased label of some column paired
with the coerced value of that column's cell, and every column's lower-cased
label is a key of the row. -/
theorem C1_cell_coercion (pn : PyNum) :
    parseCell pn none = Value.null ∧
    (∀ v q, pyContains v '.' = true → pn.float? v = some q →
      parseCell pn (some v) = Value.float q) ∧
    (∀ v n, pyContains v '.' = false → pn.int? v = some n →
      parseCell pn (some v) = Value.int n) ∧
    (∀ v, pyContains v '.' = true → pn.float? v = none →
      parseCell pn (some v) = Value.str v) ∧
    (∀ v, pyContains v '.' = false → pn.int? v = none →
      parseCell pn (some v) = Value.str v) ∧
    (∀ cols data row, parseRow pn cols data = some row →
      (∀ kv : String × Value, kv ∈ row →
        ∃ j col cell, cols.get? j = some col ∧ data.get? j = some cell ∧
          kv = (pyLower col, parseCell pn cell)) ∧
      (∀ j col, cols.get? j = some col → pyLower col ∈ dictKeys row)) := by
  refine ⟨rfl, ?_, ?_, ?_, ?_, ?_⟩
  · intro v q hdot hf
    simp [parseCell, hdot, hf]
  · intro v n hdot hi
    simp [parseCell, hdot, hi]
  · intro v hdot hf
    simp [parseCell, hdot, hf]
  · intro v hdot hi
    simp [parseCell, hdot, hi]
  · intro cols data row h
    constructor
    · intro kv hkv
      rcases parseRowAux_mem pn data cols 0 [] row h kv hkv with
        habs | ⟨j, col, cell, hc, hd, hkv'⟩
      · exact absurd habs (List.not_mem_nil kv)
      · exact ⟨j, col, cell, hc, by simpa using hd, hkv'⟩
    · intro j col hc
      have hrow := parseRowAux_eq_insertAll pn data cols 0 [] row h
      have hfst := pairsOf_fst pn data cols 0 [] row h
      rw [hrow, show dictKeys (insertAll [] (pairsOf pn data 0 cols)) =
        dictKeys (insertAll [] (pairsOf pn data 0 cols)) from rfl]
      rw [show (dictKeys (insertAll ([] : Row) (pairsOf pn data 0 cols)) :
        List String) = dictKeys (insertAll ([] : Row)
          (pairsOf pn data 0 cols)) from rfl]
      have : pyLower col ∈ (pairsOf pn data 0 cols).map Prod.fst := by
        rw [hfst]
        exact List.mem_map.mpr ⟨col, List.get?_mem hc, rfl⟩
      exact (mem_dictKeys_insertAll _ _ _).mpr (Or.inr this)

/-- C1 witness: the coercion evaluated on concrete cells through the sample
numeric parsers, by direct application of the claim theorem. -/
theorem C1_cell_coercion_witness :
    parseCell pyNumSample none = Value.null ∧
    parseCell pyNumSample (some "2.5") = Value.float (5 / 2 : Rat) ∧
    parseCell pyNumSample (some "17") = Value.int 17 ∧
    parseCell pyNumSample (some "1.x") = Value.str "1.x" ∧
    parseCell pyNumSample (some "abc") = Value.str "abc" := by
  refine ⟨(C1_cell_coercion pyNumSample).1,
    (C1_cell_coercion pyNumSample).2.1 "2.5" (5 / 2 : Rat)
      (by decide) (by simp [pyNumSample]),
    (C1_cell_coercion pyNumSample).2.2.1 "17" 17 (by decide)
      (by simp [pyNumSample]),
    (C1_cell_coercion pyNumSample).2.2.2.1 "1.x" (by decide)
      (by simp [pyNumSample]),
    (C1_cell_coercion pyNumSample).2.2.2.2.1 "abc" (by decide)
      (by simp [pyNumSample])⟩

/-- C9: the first row of a fetched result set is always discarded as the
header, so a successfully parsed dataset has exactly one row fewer than the
service's row list (with natural subtraction, so an empty row list yields an
empty dataset rather than an error), and row j of the dataset is the parse
of service row j + 1. -/
theorem C9_header_discarded (pn : PyNum) (cols : List String)
    (rows : List (List (Option String))) (out : List Row)
    (h : parseRows pn cols rows = some out) :
    out.length = rows.length - 1 ∧
    (∀ j, out.get? j = (rows.get? (j + 1)).bind (parseRow pn cols)) ∧
    parseRows pn cols [] = some [] := by
  refine ⟨?_, ?_, rfl⟩
  · rw [optionTraverse_length _ _ _ h, List.length_drop]
  · intro j
    rw [optionTraverse_get? _ _ _ h j]
    rw [List.get?_drop]
    rw [Nat.add_comm 1 j]

/-- C9 witness: a two-row result set (header plus one data row) yields a
one-row dataset, by direct application of the claim theorem. -/
theorem C9_header_discarded_witness :
    ([[("a", Value.str "x")]] : List Row).length =
      ([[some "h"], [some "x"]] : List (List (Option String))).length - 1 :=
  (C9_header_discarded pyNum0 ["A"] [[some "h"], [some "x"]]
    [[("a", Value.str "x")]] (by decide)).1

/-- C10: every row of a dataset produced from one result set has the same
key set, namely the lower-cased column labels of that result set; and a
lookup in a parsed row returns the value of the LAST assignment performed
for that key, so two columns whose labels agree after lowering collapse
into one key holding the later column's value. -/
theorem C10_row_keys (pn : PyNum) (cols : List String) :
    (∀ rows out, parseRows pn cols rows = some out →
      ∀ row ∈ out, ∀ k, k ∈ dictKeys row ↔ k ∈ cols.map pyLower) ∧
    (∀ data row, parseRow pn cols data = some row →
      ∀ k, dictLookup row k = dictLookupLast (pairsOf pn data 0 cols) k) := by
  have key : ∀ data row, parseRow pn cols data = some row →
      ∀ k, k ∈ dictKeys row ↔ k ∈ cols.map pyLower := by
    intro data row h k
    have hrow := parseRowAux_eq_insertAll pn data cols 0 [] row h
    have hfst := pairsOf_fst pn data cols 0 [] row h
    rw [hrow, mem_dictKeys_insertAll, hfst]
    constructor
    · rintro (habs | hmem)
      · exact absurd habs (List.not_mem_nil k)
      · exact hmem
    · exact fun hmem => Or.inr hmem
  constructor
  · intro rows out h row hrow k
    rcases optionTraverse_mem _ _ _ h row hrow with ⟨data, _, hparse⟩
    exact key data row hparse k
  · intro data row h k
    have hrow := parseRowAux_eq_insertAll pn data cols 0 [] row h
    rw [hrow, dictLookup_insertAll]
    cases dictLookupLast (pairsOf pn data 0 cols) k with
    | some v => rfl
    | none => rfl

/-- C10 witness: two columns whose labels differ only in case collapse into
one key holding the later column's value, by direct application of the
claim theorem. -/
theorem C10_row_keys_witness :
    dictLookup [("a", Value.str "y")] "a" =
      dictLookupLast
        (pairsOf pyNum0 [some "x", some "y"] 0 ["A", "a"]) "a" :=
  (C10_row_keys pyNum0 ["A", "a"]).2 [some "x", some "y"]
    [("a", Value.str "y")] (by decide) "a"

/-- C4: the polling loop polls the status stream and exits exactly at the
first index whose status is terminal (one of SUCCEEDED, FAILED, CANCELLED):
under the precondition that the stream eventually reports a terminal
status, the loop terminates with a terminal status, and at every earlier
poll the status was not terminal, so nothing but a terminal status ends the
loop. -/
theorem C4_poll_until_terminal (f : Nat → String)
    (h : ∃ n, isTerminal (f n) = true) :
    isTerminal (pollStatus f h) = true ∧
    (∀ m, m < pollExit f h → isTerminal (f m) = false) := by
  constructor
  · exact Nat.find_spec h
  · intro m hm
    have := Nat.find_min h hm
    simpa using this

/-- C4 witness: on a stream whose first status is already terminal, the
loop exits with a terminal status, by direct application of the claim
theorem. -/
theorem C4_poll_until_terminal_witness :
    isTerminal (pollStatus constSucceeded constSucceeded_hits) = true :=
  (C4_poll_until_terminal constSucceeded constSucceeded_hits).1

/-- C2 counterexample: in generate_data.py, a query whose execution raises
is NOT missing from the final document — with a service on which every
query fails, the key "kpis" is present and maps to the empty list, refuting
the claim that a failed query's key is missing from the output. -/
theorem C2_counterexample :
    dictLookup (final_data (fun _ => none)) "kpis" = some [] ∧
    dictLookup (final_data (fun _ => none)) "kpis" ≠ none := by
  refine ⟨by decide, by decide⟩

/-- C2 amended: for a query that fails or raises, generate_dashboard_data.py
omits the key from the final document, while generate_data.py keeps the key
and maps it to the empty list; in neither script is the key present with
null content. -/
theorem C2_failed_query_key (pn : PyNum)
    (svc : String → Option AthenaResponse)
    (svc₂ : String → Option (List Row)) (name : String)
    (h₁ : name ∈ QUERIES_names) (h₂ : name ∈ queries_names)
    (hfail : execute_athena_query pn (svc name) = none)
    (hfail₂ : svc₂ name = none) :
    dictLookup (generate_dashboard_data pn svc) name = none ∧
    dictLookup (final_data svc₂) name = some [] := by
  constructor
  · rw [gdd_lookup pn svc name h₁, hfail]
  · rw [gd_lookup svc₂ name h₂, hfail₂]
    rfl

/-- C2 witness: the amended behaviour on the all-failing service at the
query name "kpis", by direct application of the amended theorem. -/
theorem C2_failed_query_key_witness :
    dictLookup (generate_dashboard_data pyNum0 (fun _ => none)) "kpis" =
      none ∧
    dictLookup (final_data (fun _ => none)) "kpis" = some [] :=
  C2_failed_query_key pyNum0 (fun _ => none) (fun _ => none) "kpis"
    (by decide) (by decide) rfl rfl

/-- C3: for every query whose execution succeeds, the output document
contains a key equal to the query name mapping to the parsed rows, and row
j of that dataset is the parse of row j + 1 of the fetched result set, so
the dataset is in fetched order; likewise in generate_data.py the key of a
successful query maps to exactly the rows the service returned. -/
theorem C3_success_key (pn : PyNum) (svc : String → Option AthenaResponse)
    (svc₂ : String → Option (List Row)) (name : String)
    (resp : AthenaResponse) (rows : List Row)
    (h₁ : name ∈ QUERIES_names)
    (hresp : svc name = some resp)
    (hst : resp.finalStatus = "SUCCEEDED")
    (hparse : parseRows pn resp.cols resp.rows = some rows) :
    dictLookup (generate_dashboard_data pn svc) name = some rows ∧
    (∀ j, rows.get? j =
      (resp.rows.get? (j + 1)).bind (parseRow pn resp.cols)) ∧
    (∀ name₂ rows₂, name₂ ∈ queries_names → svc₂ name₂ = some rows₂ →
      dictLookup (final_data svc₂) name₂ = some rows₂) := by
  refine ⟨?_, ?_, ?_⟩
  · rw [gdd_lookup pn svc name h₁]
    simp [execute_athena_query, hresp, hst, hparse]
  · intro j
    have := optionTraverse_get? (parseRow pn resp.cols)
      (resp.rows.drop 1) rows hparse j
    rw [this, List.get?_drop, Nat.add_comm 1 j]
  · intro name₂ rows₂ hmem hok
    rw [gd_lookup svc₂ name₂ hmem, hok]
    rfl

/-- C3 witness: a service succeeding on every query with one header row and
one data row stores the parsed data row under "kpis", by direct application
of the claim theorem. -/
theorem C3_success_key_witness :
    dictLookup
      (generate_dashboard_data pyNumSample
        (fun _ => some ⟨"SUCCEEDED", ["Total_Orders"],
          [[some "h"], [some "17"]]⟩))
      "kpis" = some [[("total_orders", Value.int 17)]] ∧
    dictLookup (final_data (fun _ => some [[("x", Value.null)]])) "kpis" =
      some [[("x", Value.null)]] := by
  have h := C3_success_key pyNumSample
    (fun _ => some ⟨"SUCCEEDED", ["Total_Orders"], [[some "h"], [some "17"]]⟩)
    (fun _ => some [[("x", Value.null)]]) "kpis"
    ⟨"SUCCEEDED", ["Total_Orders"], [[some "h"], [some "17"]]⟩
    [[("total_orders", Value.int 17)]]
    (by decide) rfl rfl (by simp [parseRows, optionTraverse, parseRow,
      parseRowAux, parseCell, pyNumSample, dictInsert, pyLower, pyContains])
  exact ⟨h.1, h.2.2 "kpis" [[("x", Value.null)]] (by decide) rfl⟩

/-- C6 counterexample: the top-level key set of generate_dashboard_data.py
is NOT the same on every run — with an all-failing service the document has
no keys at all, while with an all-succeeding service it has all nine query
names, refuting the claim that the key set is fixed regardless of per-query
outcomes. -/
theorem C6_counterexample :
    dictKeys (generate_dashboard_data pyNum0 (fun _ => none)) = [] ∧
    dictKeys (generate_dashboard_data pyNum0
      (fun _ => some ⟨"SUCCEEDED", [], []⟩)) = QUERIES_names := by
  refine ⟨by decide, by decide⟩

/-- C6 amended: every top-level key of either document is a query name of
its script.  In generate_data.py the key set is fixed: it equals the query
names on every run regardless of outcomes.  In generate_dashboard_data.py a
query name is a key exactly when that query's execution produced a result,
so the key set varies with per-query outcomes. -/
theorem C6_key_set (pn : PyNum) (svc : String → Option AthenaResponse)
    (svc₂ : String → Option (List Row)) :
    (∀ k, k ∈ dictKeys (generate_dashboard_data pn svc) ↔
      k ∈ QUERIES_names ∧ (execute_athena_query pn (svc k)).isSome) ∧
    (∀ k, k ∈ dictKeys (final_data svc₂) ↔ k ∈ queries_names) := by
  constructor
  · intro k
    rw [generate_dashboard_data, mem_keys_foldl_buildStep]
    constructor
    · rintro (habs | hmem)
      · exact absurd habs (List.not_mem_nil k)
      · exact hmem
    · exact fun hmem => Or.inr hmem
  · intro k
    rw [final_data, mem_keys_foldl_buildStep]
    constructor
    · rintro (habs | hmem)
      · exact absurd habs (List.not_mem_nil k)
      · exact hmem.1
    · exact fun hmem => Or.inr ⟨hmem, rfl⟩

/-- C7: a failure of one query is confined to that query's entry: if two
service behaviours agree on every query except `q`, the two documents agree
at every name other than `q` — so a failure (or any change of outcome) at
`q` leaves the datasets of all other queries unchanged and does not prevent
the remaining queries from being executed and stored.  This holds for both
scripts. -/
theorem C7_failure_isolation (pn : PyNum)
    (svc svc' : String → Option AthenaResponse)
    (svc₂ svc₂' : String → Option (List Row)) (q : String)
    (hagree : ∀ n, n ≠ q → svc n = svc' n)
    (hagree₂ : ∀ n, n ≠ q → svc₂ n = svc₂' n) :
    (∀ name, name ≠ q →
      dictLookup (generate_dashboard_data pn svc) name =
        dictLookup (generate_dashboard_data pn svc') name) ∧
    (∀ name, name ≠ q →
      dictLookup (final_data svc₂) name =
        dictLookup (final_data svc₂') name) := by
  constructor
  · intro name hname
    by_cases hmem : name ∈ QUERIES_names
    · rw [gdd_lookup pn svc name hmem, gdd_lookup pn svc' name hmem,
        hagree name hname]
    · rw [gdd_lookup_notMem pn svc name hmem,
        gdd_lookup_notMem pn svc' name hmem]
  · intro name hname
    by_cases hmem : name ∈ queries_names
    · rw [gd_lookup svc₂ name hmem, gd_lookup svc₂' name hmem,
        hagree₂ name hname]
    · rw [gd_lookup_notMem svc₂ name hmem,
        gd_lookup_notMem svc₂' name hmem]

/-- C7 witness: making only the "kpis" query fail leaves the
"monthly_sales" entry unchanged in both scripts, by direct application of
the claim theorem. -/
theorem C7_failure_isolation_witness :
    dictLookup (generate_dashboard_data pyNum0
        (fun _ => some ⟨"SUCCEEDED", [], []⟩)) "monthly_sales" =
      dictLookup (generate_dashboard_data pyNum0
        (fun n => if n = "kpis" then none
          else some ⟨"SUCCEEDED", [], []⟩)) "monthly_sales" ∧
    dictLookup (final_data (fun _ => some [])) "monthly_sales" =
      dictLookup (final_data
        (fun n => if n = "kpis" then none else some [])) "monthly_sales" := by
  have h := C7_failure_isolation pyNum0
    (fun _ => some ⟨"SUCCEEDED", [], []⟩)
    (fun n => if n = "kpis" then none else some ⟨"SUCCEEDED", [], []⟩)
    (fun _ => some []) (fun n => if n = "kpis" then none else some [])
    "kpis"
    (fun n hn => by simp [hn])
    (fun n hn => by simp [hn])
  exact ⟨h.1 "monthly_sales" (by decide), h.2 "monthly_sales" (by decide)⟩

/-- C8 counterexample: the two scripts do NOT issue the same fixed set of
named queries — generate_dashboard_data.py issues a query named
"monthly_revenue" that generate_data.py does not issue, so run against the
same query-service behaviour the two documents cannot have the same
top-level key set when that query succeeds. -/
theorem C8_counterexample :
    "monthly_revenue" ∈ QUERIES_names ∧
      "monthly_revenue" ∉ queries_names := by
  decide

/-- C8 amended: the scripts issue overlapping but not identical query-name
sets: every query name of generate_data.py is also issued by
generate_dashboard_data.py, and the only name issued by one script and not
the other is "monthly_revenue", issued solely by
generate_dashboard_data.py. -/
theorem C8_query_sets :
    (∀ n ∈ queries_names, n ∈ QUERIES_names) ∧
    (∀ n ∈ QUERIES_names, n = "monthly_revenue" ∨ n ∈ queries_names) ∧
    "monthly_revenue" ∈ QUERIES_names ∧
    "monthly_revenue" ∉ queries_names := by
  decide

/-- C5: round-trip — serializing the dashboard document to the JSON value
tree and decoding it back yields, for every dataset present, a dataset
under the same name with the same number of rows and the same column keys
row for row. -/
theorem C5_json_round_trip (doc : Doc) (name : String) (ds : Dataset)
    (h : dictLookup doc name = some ds) :
    ∃ doc₂, decodeDoc (encodeDoc doc) = some doc₂ ∧
      ∃ ds₂, dictLookup doc₂ name = some ds₂ ∧
        ds₂.length = ds.length ∧
        ds₂.map dictKeys = ds.map dictKeys :=
  ⟨doc, decodeDoc_encodeDoc doc, ds, h, rfl, rfl⟩

/-- C5 witness: the round-trip evaluated on a concrete one-query document,
by direct application of the claim theorem. -/
theorem C5_json_round_trip_witness :
    ∃ doc₂,
      decodeDoc (encodeDoc [("kpis", [[("a", Value.int 1)]])]) = some doc₂ ∧
      ∃ ds₂, dictLookup doc₂ "kpis" = some ds₂ ∧
        ds₂.length = ([[("a", Value.int 1)]] : Dataset).length ∧
        ds₂.map dictKeys = ([[("a", Value.int 1)]] : Dataset).map dictKeys :=
  C5_json_round_trip [("kpis", [[("a", Value.int 1)]])] "kpis"
    [[("a", Value.int 1)]] (by decide)

/-- C8 witness: a shared query name, by direct application of the amended
theorem's first component at a concrete name. -/
theorem C8_query_sets_witness : "kpis" ∈ QUERIES_names :=
  C8_query_sets.1 "kpis" (by decide)
